import Mathlib

/-!
Verification of the mailbox command-channel protocol of the RAS feature
drivers: the ACPI RAS2 PCC channel (drivers/acpi/ras2.c) and the CXL
chunked feature-transfer and feature-directory engines
(drivers/cxl/core/features.c, drivers/cxl/features.c).

Machine integers are modelled as Nat with explicit truncation (% 2^16,
% 2^32) exactly where the C code truncates; errno returns are modelled
as Int (0 for success, negative errno on failure); unbounded C loops are
modelled with an explicit fuel argument large enough that, under the
preconditions established by the code before entering the loop, the fuel
is never exhausted (exhaustion returns none, and the theorems show the
actual runs produce some).
-/

/-! Linux errno values (include/uapi/asm-generic/errno-base.h) -/

def EPERM : Int := 1

def ENOENT : Int := 2

def Eio : Int := 5

def Enxio : Int := 6

def ENOMEM : Int := 12

def EBUSY : Int := 16

def EINVAL : Int := 22

def EOPNOTSUPP : Int := 95

/-! Channel outcome taxonomy (spec section 7)

The spec's outcome taxonomy, with the errno each outcome travels as in
the code: PermissionDenied = -EPERM, Busy = -EBUSY, InvalidData =
-EINVAL, IoTimeout = -EIO, Success = 0, anything else TransportError. -/

inductive Outcome where
  | Success
  | PermissionDenied
  | Busy
  | InvalidData
  | IoTimeout
  | TransportError (code : Int)
  deriving DecidableEq, Repr

def outcome_of_ret (r : Int) : Outcome :=
  if r = 0 then .Success
  else if r = -EPERM then .PermissionDenied
  else if r = -EBUSY then .Busy
  else if r = -EINVAL then .InvalidData
  else if r = -Eio then .IoTimeout
  else .TransportError r

/-! RAS2 agent status codes

Modelled from the spec: the ACPI table constants ACPI_RAS2_* are declared
in an ACPI header that is not part of this tree; the spec's status
translation table names the codes not-valid, not-supported, busy, failed,
aborted and invalid-data, which carry the ACPI RAS2 values 1..6
(0 = success). -/

def ACPI_RAS2_NOT_VALID : Nat := 1

def ACPI_RAS2_NOT_SUPPORTED : Nat := 2

def ACPI_RAS2_BUSY : Nat := 3

def ACPI_RAS2_FAILED : Nat := 4

def ACPI_RAS2_ABORTED : Nat := 5

def ACPI_RAS2_INVALID_DATA : Nat := 6

/-- drivers/acpi/ras2.c:36 ras2_report_cap_error: translate the
agent-reported capability status word into an errno. -/
def ras2_report_cap_error (cap_status : Nat) : Int :=
  if cap_status = ACPI_RAS2_NOT_VALID ∨ cap_status = ACPI_RAS2_NOT_SUPPORTED then
    -EPERM
  else if cap_status = ACPI_RAS2_BUSY then
    -EBUSY
  else if cap_status = ACPI_RAS2_FAILED ∨ cap_status = ACPI_RAS2_ABORTED ∨
      cap_status = ACPI_RAS2_INVALID_DATA then
    -EINVAL
  else
    0

/-- The spec's status translation table, written from the spec's words
(section 4.1): not-valid / not-supported give PermissionDenied; busy gives
Busy; failed / aborted / invalid-data give InvalidData; anything else,
including 0, gives Success. -/
def spec_status_table (cap_status : Nat) : Outcome :=
  if cap_status = ACPI_RAS2_NOT_VALID ∨ cap_status = ACPI_RAS2_NOT_SUPPORTED then
    .PermissionDenied
  else if cap_status = ACPI_RAS2_BUSY then
    .Busy
  else if cap_status = ACPI_RAS2_FAILED ∨ cap_status = ACPI_RAS2_ABORTED ∨
      cap_status = ACPI_RAS2_INVALID_DATA then
    .InvalidData
  else
    .Success

/-- C2: for every agent-reported status code, the errno computed by
ras2_report_cap_error decodes to exactly the outcome the spec's
translation table prescribes: PermissionDenied for not-valid and
not-supported, Busy for busy, InvalidData for failed, aborted and
invalid-data, and Success for every other code, including 0. -/
theorem ras2_status_decoding_matches_table (cap_status : Nat) :
    outcome_of_ret (ras2_report_cap_error cap_status) = spec_status_table cap_status := by
  unfold ras2_report_cap_error spec_status_table outcome_of_ret
  unfold ACPI_RAS2_NOT_VALID ACPI_RAS2_NOT_SUPPORTED ACPI_RAS2_BUSY ACPI_RAS2_FAILED
  unfold ACPI_RAS2_ABORTED ACPI_RAS2_INVALID_DATA EPERM EBUSY EINVAL Eio
  split_ifs <;> first | rfl | omega | exact False.elim (by assumption)

/-! CXL SET feature: multi-phase chunked transfer
(drivers/cxl/core/features.c:192 cxl_set_feature, wire layout from
include/cxl/features.h) -/

def CXL_SET_FEAT_FLAG_DATA_TRANSFER_MASK : Nat := 7

def CXL_SET_FEAT_FLAG_FULL_DATA_TRANSFER : Nat := 0

def CXL_SET_FEAT_FLAG_INITIATE_DATA_TRANSFER : Nat := 1

def CXL_SET_FEAT_FLAG_CONTINUE_DATA_TRANSFER : Nat := 2

def CXL_SET_FEAT_FLAG_FINISH_DATA_TRANSFER : Nat := 3

def CXL_SET_FEAT_FLAG_DATA_SAVED_ACROSS_RESET : Nat := 8

/-- sizeof(struct cxl_mbox_set_feat_hdr): uuid 16 + flags 4 + offset 2 +
version 1 + reserved 9 = 32 bytes. -/
def cxl_set_feat_hdr_size : Nat := 32

def FEAT_DATA_MIN_PAYLOAD_SIZE : Nat := 10

/-- One SET chunk as it goes on the wire: the flags word of the header,
the 16-bit offset field of the header, and the number of feature-data
bytes carried alongside the header. -/
structure SetChunk where
  flags : Nat
  offset : Nat
  size : Nat
  deriving DecidableEq, Repr

/-- drivers/cxl/core/features.c:224-225: the caller-supplied flags word
(a u32) has the 3-bit data-transfer-phase field cleared and the
data-saved-across-reset flag forced on before the loop starts. -/
def cxl_set_feat_flag_sanitized (feat_flag : Nat) : Nat :=
  (feat_flag &&& (2 ^ 32 - 1 - CXL_SET_FEAT_FLAG_DATA_TRANSFER_MASK)) |||
    CXL_SET_FEAT_FLAG_DATA_SAVED_ACROSS_RESET

/-- The do-while loop of cxl_set_feature (features.c:244-274), with the
channel always accepting the chunk: emits the current chunk (header flags
word, 16-bit offset field offset+data_sent_size, data_in_size data
bytes), stops once data_sent_size has reached feat_data_size, and
otherwise picks the next chunk's size and phase (FINISH with the exact
remainder when it fits in payload_size - hdr_size, else CONTINUE keeping
data_in_size).  feat_flag is the already-sanitized flags word.  fuel
bounds the iteration count; none means the fuel ran out. -/
def cxl_set_feature_loop (payload_size feat_flag offset feat_data_size : Nat) :
    Nat → Nat → Nat → Nat → Option (List SetChunk)
  | 0, _, _, _ => none
  | fuel + 1, data_sent_size, data_in_size, flags =>
    let chunk : SetChunk := ⟨flags, (offset + data_sent_size) % 2 ^ 16, data_in_size⟩
    if feat_data_size ≤ data_sent_size + data_in_size then
      some [chunk]
    else if feat_data_size - (data_sent_size + data_in_size) ≤
        payload_size - cxl_set_feat_hdr_size then
      Option.map (fun rest => chunk :: rest)
        (cxl_set_feature_loop payload_size feat_flag offset feat_data_size fuel
          (data_sent_size + data_in_size) (feat_data_size - (data_sent_size + data_in_size))
          (feat_flag ||| CXL_SET_FEAT_FLAG_FINISH_DATA_TRANSFER))
    else
      Option.map (fun rest => chunk :: rest)
        (cxl_set_feature_loop payload_size feat_flag offset feat_data_size fuel
          (data_sent_size + data_in_size) data_in_size
          (feat_flag ||| CXL_SET_FEAT_FLAG_CONTINUE_DATA_TRANSFER))

/-- cxl_set_feature (features.c:192-275), as the sequence of chunk
commands it emits when every chunk is accepted by the channel: none when
the mailbox cannot hold the header plus a 10-byte minimum of data (the
-ENOMEM path, which emits nothing).  The initial phase and chunk size are
chosen at features.c:234-242: FULL with all the data when header+data fit
in one transfer, INITIATE with payload_size - hdr_size data bytes
otherwise.  The fuel feat_data_size + 2 is sufficient because every
iteration but the last sends at least one byte. -/
def cxl_set_feature_chunks (payload_size feat_flag offset feat_data_size : Nat) :
    Option (List SetChunk) :=
  let flag := cxl_set_feat_flag_sanitized feat_flag
  if payload_size < cxl_set_feat_hdr_size + FEAT_DATA_MIN_PAYLOAD_SIZE then
    none
  else if cxl_set_feat_hdr_size + feat_data_size ≤ payload_size then
    cxl_set_feature_loop payload_size flag offset feat_data_size (feat_data_size + 2)
      0 feat_data_size (flag ||| CXL_SET_FEAT_FLAG_FULL_DATA_TRANSFER)
  else
    cxl_set_feature_loop payload_size flag offset feat_data_size (feat_data_size + 2)
      0 (payload_size - cxl_set_feat_hdr_size)
      (flag ||| CXL_SET_FEAT_FLAG_INITIATE_DATA_TRANSFER)

theorem cxl_set_feature_loop_unfold (payload_size feat_flag offset feat_data_size
    fuel data_sent_size data_in_size flags : Nat) (h : fuel ≠ 0) :
    cxl_set_feature_loop payload_size feat_flag offset feat_data_size fuel
      data_sent_size data_in_size flags =
    if feat_data_size ≤ data_sent_size + data_in_size then
      some [⟨flags, (offset + data_sent_size) % 2 ^ 16, data_in_size⟩]
    else if feat_data_size - (data_sent_size + data_in_size) ≤
        payload_size - cxl_set_feat_hdr_size then
      Option.map (fun rest => ⟨flags, (offset + data_sent_size) % 2 ^ 16, data_in_size⟩ :: rest)
        (cxl_set_feature_loop payload_size feat_flag offset feat_data_size (fuel - 1)
          (data_sent_size + data_in_size) (feat_data_size - (data_sent_size + data_in_size))
          (feat_flag ||| CXL_SET_FEAT_FLAG_FINISH_DATA_TRANSFER))
    else
      Option.map (fun rest => ⟨flags, (offset + data_sent_size) % 2 ^ 16, data_in_size⟩ :: rest)
        (cxl_set_feature_loop payload_size feat_flag offset feat_data_size (fuel - 1)
          (data_sent_size + data_in_size) data_in_size
          (feat_flag ||| CXL_SET_FEAT_FLAG_CONTINUE_DATA_TRANSFER)) := by
  cases fuel with
  | zero => exact absurd rfl h
  | succ f => rfl

/-- C1 (amended): for every mailbox capacity C that passes the
minimum-size check (C at least hdr+10), a payload of exactly C-32 bytes
goes out as one FULL chunk; C-32+1 bytes as INITIATE then FINISH;
3*(C-32) bytes as INITIATE, CONTINUE, FINISH in that order; and each
chunk's 16-bit offset field is (caller offset + bytes already sent)
reduced modulo 2^16 (the cpu_to_le16 truncation at features.c:245). -/
theorem cxl_set_feature_phase_sequence (ps feat_flag off : Nat)
    (h : cxl_set_feat_hdr_size + FEAT_DATA_MIN_PAYLOAD_SIZE ≤ ps) :
    cxl_set_feature_chunks ps feat_flag off (ps - cxl_set_feat_hdr_size) =
      some [⟨cxl_set_feat_flag_sanitized feat_flag ||| CXL_SET_FEAT_FLAG_FULL_DATA_TRANSFER,
             off % 2 ^ 16, ps - cxl_set_feat_hdr_size⟩] ∧
    cxl_set_feature_chunks ps feat_flag off (ps - cxl_set_feat_hdr_size + 1) =
      some [⟨cxl_set_feat_flag_sanitized feat_flag ||| CXL_SET_FEAT_FLAG_INITIATE_DATA_TRANSFER,
             off % 2 ^ 16, ps - cxl_set_feat_hdr_size⟩,
            ⟨cxl_set_feat_flag_sanitized feat_flag ||| CXL_SET_FEAT_FLAG_FINISH_DATA_TRANSFER,
             (off + (ps - cxl_set_feat_hdr_size)) % 2 ^ 16, 1⟩] ∧
    cxl_set_feature_chunks ps feat_flag off (3 * (ps - cxl_set_feat_hdr_size)) =
      some [⟨cxl_set_feat_flag_sanitized feat_flag ||| CXL_SET_FEAT_FLAG_INITIATE_DATA_TRANSFER,
             off % 2 ^ 16, ps - cxl_set_feat_hdr_size⟩,
            ⟨cxl_set_feat_flag_sanitized feat_flag ||| CXL_SET_FEAT_FLAG_CONTINUE_DATA_TRANSFER,
             (off + (ps - cxl_set_feat_hdr_size)) % 2 ^ 16, ps - cxl_set_feat_hdr_size⟩,
            ⟨cxl_set_feat_flag_sanitized feat_flag ||| CXL_SET_FEAT_FLAG_FINISH_DATA_TRANSFER,
             (off + 2 * (ps - cxl_set_feat_hdr_size)) % 2 ^ 16, ps - cxl_set_feat_hdr_size⟩] := by
  unfold cxl_set_feat_hdr_size FEAT_DATA_MIN_PAYLOAD_SIZE at *
  obtain ⟨D, rfl⟩ : ∃ D, ps = D + 42 := ⟨ps - 42, by omega⟩
  refine ⟨?_, ?_, ?_⟩
  · simp only [cxl_set_feature_chunks, cxl_set_feat_hdr_size, FEAT_DATA_MIN_PAYLOAD_SIZE]
    rw [if_neg (by first
      | omega
      | (simp only [cxl_set_feat_hdr_size]; omega)), if_pos (by first
      | omega
      | (simp only [cxl_set_feat_hdr_size]; omega)),
      cxl_set_feature_loop_unfold _ _ _ _ _ _ _ _ (by first
      | omega
      | (simp only [cxl_set_feat_hdr_size]; omega)), if_pos (by first
      | omega
      | (simp only [cxl_set_feat_hdr_size]; omega))]
    simp only [cxl_set_feat_hdr_size, Option.some.injEq, List.cons.injEq, SetChunk.mk.injEq, and_true, true_and]
    omega
  · simp only [cxl_set_feature_chunks, cxl_set_feat_hdr_size, FEAT_DATA_MIN_PAYLOAD_SIZE]
    rw [if_neg (by first
      | omega
      | (simp only [cxl_set_feat_hdr_size]; omega)), if_neg (by first
      | omega
      | (simp only [cxl_set_feat_hdr_size]; omega)),
      cxl_set_feature_loop_unfold _ _ _ _ _ _ _ _ (by first
      | omega
      | (simp only [cxl_set_feat_hdr_size]; omega)), if_neg (by first
      | omega
      | (simp only [cxl_set_feat_hdr_size]; omega)),
      if_pos (by first
      | omega
      | (simp only [cxl_set_feat_hdr_size]; omega)),
      cxl_set_feature_loop_unfold _ _ _ _ _ _ _ _ (by first
      | omega
      | (simp only [cxl_set_feat_hdr_size]; omega)), if_pos (by first
      | omega
      | (simp only [cxl_set_feat_hdr_size]; omega))]
    simp only [cxl_set_feat_hdr_size, Option.map_some', Option.some.injEq, List.cons.injEq, SetChunk.mk.injEq,
      and_true, true_and]
    omega
  · simp only [cxl_set_feature_chunks, cxl_set_feat_hdr_size, FEAT_DATA_MIN_PAYLOAD_SIZE]
    rw [if_neg (by first
      | omega
      | (simp only [cxl_set_feat_hdr_size]; omega)), if_neg (by first
      | omega
      | (simp only [cxl_set_feat_hdr_size]; omega)),
      cxl_set_feature_loop_unfold _ _ _ _ _ _ _ _ (by first
      | omega
      | (simp only [cxl_set_feat_hdr_size]; omega)), if_neg (by first
      | omega
      | (simp only [cxl_set_feat_hdr_size]; omega)),
      if_neg (by first
      | omega
      | (simp only [cxl_set_feat_hdr_size]; omega)),
      cxl_set_feature_loop_unfold _ _ _ _ _ _ _ _ (by first
      | omega
      | (simp only [cxl_set_feat_hdr_size]; omega)), if_neg (by first
      | omega
      | (simp only [cxl_set_feat_hdr_size]; omega)),
      if_pos (by first
      | omega
      | (simp only [cxl_set_feat_hdr_size]; omega)),
      cxl_set_feature_loop_unfold _ _ _ _ _ _ _ _ (by first
      | omega
      | (simp only [cxl_set_feat_hdr_size]; omega)), if_pos (by first
      | omega
      | (simp only [cxl_set_feat_hdr_size]; omega))]
    simp only [cxl_set_feat_hdr_size, Option.map_some', Option.some.injEq, List.cons.injEq, SetChunk.mk.injEq,
      and_true, true_and]
    omega

/-- C1 counterexample: with mailbox capacity 32800 (so C-H = 32768) and a
payload of 3*(C-H) = 98304 bytes starting at caller offset 0, the third
chunk's 16-bit offset field is 0, not the 65536 bytes already sent: the
cpu_to_le16 conversion truncates offset+sent modulo 2^16. -/
theorem cxl_set_feature_offset_field_truncates :
    Option.map (List.map SetChunk.offset) (cxl_set_feature_chunks 32800 0 0 98304) =
      some [0, 32768, 0] ∧ (0 : Nat) ≠ 0 + (32768 + 32768) := by
  constructor
  · rfl
  · decide

/-- Witness for C1: capacity 50, caller flags 0, caller offset 0; payload
18 = 50-32 gives the single FULL chunk with sanitized flags 8 (persist
bit) and offset field 0. -/
theorem cxl_set_feature_phase_sequence_witness :
    cxl_set_feature_chunks 50 0 0 18 = some [⟨8, 0, 18⟩] :=
  (cxl_set_feature_phase_sequence 50 0 0 (by decide)).1

theorem lor8_lor_and8 (y p : Nat) : ((y ||| 8) ||| p) &&& 8 = 8 := by
  have h8 : (8 : Nat) = 2 ^ 3 := by norm_num
  rw [h8, Nat.and_two_pow]
  have ht : Nat.testBit ((y ||| 2 ^ 3) ||| p) 3 = true := by
    simp only [Nat.testBit_lor, Bool.or_eq_true]
    exact Or.inl (Or.inr (by decide))
  rw [ht]
  norm_num

theorem cxl_set_feature_loop_flags_inv (fuel : Nat) :
    ∀ ps ff off tot sent din flags l,
      (∃ p, p ≤ 3 ∧ flags = ff ||| p) →
      cxl_set_feature_loop ps ff off tot fuel sent din flags = some l →
      ∀ c ∈ l, ∃ p, p ≤ 3 ∧ c.flags = ff ||| p := by
  induction fuel with
  | zero =>
    intro ps ff off tot sent din flags l _ h
    exact Option.noConfusion h
  | succ f ih =>
    intro ps ff off tot sent din flags l hf hl c hc
    rw [cxl_set_feature_loop_unfold _ _ _ _ _ _ _ _ (Nat.succ_ne_zero f)] at hl
    split_ifs at hl
    · simp only [Option.some.injEq] at hl
      subst hl
      simp only [List.mem_singleton] at hc
      subst hc
      exact hf
    · obtain ⟨rest, hrest, rfl⟩ := Option.map_eq_some'.mp hl
      rcases List.mem_cons.mp hc with rfl | hcr
      · exact hf
      · exact ih ps ff off tot _ _ _ rest ⟨3, by omega, rfl⟩ hrest c hcr
    · obtain ⟨rest, hrest, rfl⟩ := Option.map_eq_some'.mp hl
      rcases List.mem_cons.mp hc with rfl | hcr
      · exact hf
      · exact ih ps ff off tot _ _ _ rest ⟨2, by omega, rfl⟩ hrest c hcr

/-- C10: every chunk a SET emits carries as its wire flags word exactly
(caller flags with the 3-bit data-transfer-phase mask cleared) OR the
data-saved-across-reset flag OR one of the four phase markers (0..3); in
particular the persist-across-reset bit is set on every chunk regardless
of what the caller asked for, and any phase bits the caller supplied are
discarded. -/
theorem cxl_set_feature_chunk_flags (ps ff off tot : Nat) (l : List SetChunk)
    (h : cxl_set_feature_chunks ps ff off tot = some l) :
    ∀ c ∈ l, ∃ p, p ≤ 3 ∧
      c.flags = cxl_set_feat_flag_sanitized ff ||| p ∧
      c.flags &&& CXL_SET_FEAT_FLAG_DATA_SAVED_ACROSS_RESET =
        CXL_SET_FEAT_FLAG_DATA_SAVED_ACROSS_RESET := by
  intro c hc
  have key : ∃ p, p ≤ 3 ∧ c.flags = cxl_set_feat_flag_sanitized ff ||| p := by
    unfold cxl_set_feature_chunks at h
    split_ifs at h
    · exact cxl_set_feature_loop_flags_inv _ _ _ _ _ _ _ _ _
        ⟨CXL_SET_FEAT_FLAG_FULL_DATA_TRANSFER, by decide, rfl⟩ h c hc
    · exact cxl_set_feature_loop_flags_inv _ _ _ _ _ _ _ _ _
        ⟨CXL_SET_FEAT_FLAG_INITIATE_DATA_TRANSFER, by decide, rfl⟩ h c hc
  obtain ⟨p, hp, hcf⟩ := key
  refine ⟨p, hp, hcf, ?_⟩
  rw [hcf]
  unfold cxl_set_feat_flag_sanitized CXL_SET_FEAT_FLAG_DATA_SAVED_ACROSS_RESET
  exact lor8_lor_and8 _ _

/-- Witness for C10: capacity 50, caller flags 7 (all phase bits set by
the caller, all discarded), payload 18: the single chunk's wire flags are
8 = persist-across-reset | FULL. -/
theorem cxl_set_feature_chunk_flags_witness :
    ∃ p, p ≤ 3 ∧ (SetChunk.mk 8 0 18).flags = cxl_set_feat_flag_sanitized 7 ||| p ∧
      (SetChunk.mk 8 0 18).flags &&& CXL_SET_FEAT_FLAG_DATA_SAVED_ACROSS_RESET =
        CXL_SET_FEAT_FLAG_DATA_SAVED_ACROSS_RESET :=
  cxl_set_feature_chunk_flags 50 7 0 18 [⟨8, 0, 18⟩] (by rfl) ⟨8, 0, 18⟩ (by decide)

/-! CXL GET feature: chunked read
(drivers/cxl/core/features.c:126 cxl_get_feature) -/

/-- sizeof(struct cxl_mbox_get_feat_in): uuid 16 + offset 2 + count 2 +
selection 1 = 21 bytes. -/
def cxl_get_feat_in_size : Nat := 21

/-- Mailbox command return codes (CXL spec command return codes; the
enum lives in cxlmem.h, outside this tree): 0 is success, 2 is the
invalid-input code the driver preloads into *return_code. -/
def CXL_MBOX_CMD_RC_SUCCESS : Nat := 0

def CXL_MBOX_CMD_RC_INPUT : Nat := 2

/-- The wire-visible part of one GET request: the 16-bit offset field and
the 16-bit count field of struct cxl_mbox_get_feat_in. -/
structure GetReq where
  offset : Nat
  count : Nat
  deriving DecidableEq, Repr

/-- What the channel hands back for one chunk: the return value of
cxl_internal_send_cmd (rc, negative errno on failure), the number of
output payload bytes (mbox_cmd.size_out after the call) and the hardware
return code (mbox_cmd.return_code).

Modelled from the spec: cxl_internal_send_cmd itself is outside this
tree; per spec section 4.1 step 6 the channel copies output up to the
smaller of the caller's buffer size and the mailbox capacity, so a
successful response carries size_out ≤ min(feat_out_size, payload_size)
— which is not necessarily the per-chunk requested count. -/
structure ChanResp where
  rc : Int
  size_out : Nat
  return_code : Nat
  deriving DecidableEq, Repr

/-- The do-while loop of cxl_get_feature (features.c:156-177): each
iteration requests min(feat_out_size - data_rcvd_size, payload_size)
bytes at 16-bit offset field offset + data_rcvd_size, then aborts
returning 0 bytes and the channel's return_code if the channel failed
(rc < 0) or returned no output bytes, otherwise accumulates size_out and
loops until data_rcvd_size reaches feat_out_size.  Returns the issued
request headers, the byte count cxl_get_feature returns, and the value
stored through *return_code.  agent gives the channel's response to the
i-th chunk; none means the fuel ran out. -/
def cxl_get_feature_loop (payload_size feat_out_size offset : Nat)
    (agent : Nat → ChanResp) :
    Nat → Nat → Nat → List GetReq → Option (List GetReq × Nat × Nat)
  | 0, _, _, _ => none
  | fuel + 1, idx, data_rcvd_size, reqs =>
    let data_to_rd_size := min (feat_out_size - data_rcvd_size) payload_size
    let req : GetReq := ⟨(offset + data_rcvd_size) % 2 ^ 16, data_to_rd_size % 2 ^ 16⟩
    let resp := agent idx
    if resp.rc < 0 ∨ resp.size_out = 0 then
      some (reqs ++ [req], 0, resp.return_code)
    else if data_rcvd_size + resp.size_out < feat_out_size then
      cxl_get_feature_loop payload_size feat_out_size offset agent fuel (idx + 1)
        (data_rcvd_size + resp.size_out) (reqs ++ [req])
    else
      some (reqs ++ [req], data_rcvd_size + resp.size_out, CXL_MBOX_CMD_RC_SUCCESS)

/-- cxl_get_feature (features.c:126-183): the guard for a null/empty
output buffer returns 0 bytes with *return_code still at the preloaded
RC_INPUT value (the cfs and feature-enabled guards behave the same way
and are omitted: the claims are about the transfer loop); otherwise the
chunk loop runs.  Fuel feat_out_size + 1 is enough because every
continuing iteration accumulates at least one byte. -/
def cxl_get_feature (payload_size feat_out_size offset : Nat)
    (agent : Nat → ChanResp) : Option (List GetReq × Nat × Nat) :=
  if feat_out_size = 0 then
    some ([], 0, CXL_MBOX_CMD_RC_INPUT)
  else
    cxl_get_feature_loop payload_size feat_out_size offset agent
      (feat_out_size + 1) 0 0 []

theorem cxl_get_feature_loop_unfold (payload_size feat_out_size offset : Nat)
    (agent : Nat → ChanResp) (fuel idx data_rcvd_size : Nat) (reqs : List GetReq)
    (h : fuel ≠ 0) :
    cxl_get_feature_loop payload_size feat_out_size offset agent fuel idx
      data_rcvd_size reqs =
    if (agent idx).rc < 0 ∨ (agent idx).size_out = 0 then
      some (reqs ++ [⟨(offset + data_rcvd_size) % 2 ^ 16,
        min (feat_out_size - data_rcvd_size) payload_size % 2 ^ 16⟩], 0,
        (agent idx).return_code)
    else if data_rcvd_size + (agent idx).size_out < feat_out_size then
      cxl_get_feature_loop payload_size feat_out_size offset agent (fuel - 1) (idx + 1)
        (data_rcvd_size + (agent idx).size_out)
        (reqs ++ [⟨(offset + data_rcvd_size) % 2 ^ 16,
          min (feat_out_size - data_rcvd_size) payload_size % 2 ^ 16⟩])
    else
      some (reqs ++ [⟨(offset + data_rcvd_size) % 2 ^ 16,
        min (feat_out_size - data_rcvd_size) payload_size % 2 ^ 16⟩],
        data_rcvd_size + (agent idx).size_out, CXL_MBOX_CMD_RC_SUCCESS) := by
  cases fuel with
  | zero => exact absurd rfl h
  | succ f => rfl

/-- Total output bytes the channel reports for chunks idx..idx+k-1. -/
def chanRespSizes (agent : Nat → ChanResp) (idx k : Nat) : Nat :=
  ∑ j ∈ Finset.range k, (agent (idx + j)).size_out

theorem chanRespSizes_succ (agent : Nat → ChanResp) (idx k : Nat) :
    chanRespSizes agent idx (k + 1) =
      (agent idx).size_out + chanRespSizes agent (idx + 1) k := by
  unfold chanRespSizes
  rw [Finset.sum_range_succ']
  have h1 : (agent (idx + 0)).size_out = (agent idx).size_out := by norm_num
  have h2 : ∀ j ∈ Finset.range k, (agent (idx + (j + 1))).size_out =
      (agent (idx + 1 + j)).size_out := by
    intro j _
    have hj2 : idx + (j + 1) = idx + 1 + j := by omega
    rw [hj2]
  rw [Finset.sum_congr rfl h2, h1, Nat.add_comm]

theorem le_chanRespSizes (agent : Nat → ChanResp) (idx k : Nat)
    (h : ∀ j, j < k → (agent (idx + j)).size_out ≠ 0) :
    k ≤ chanRespSizes agent idx k := by
  unfold chanRespSizes
  calc k = ∑ _j ∈ Finset.range k, 1 := by simp
  _ ≤ ∑ j ∈ Finset.range k, (agent (idx + j)).size_out := by
      apply Finset.sum_le_sum
      intro i hi
      have := h i (Finset.mem_range.mp hi)
      omega

theorem cxl_get_feature_loop_abort (ps total off : Nat) (agent : Nat → ChanResp) :
    ∀ k fuel idx rcvd reqs, k < fuel → rcvd < total →
      (∀ j, j < k → 0 ≤ (agent (idx + j)).rc ∧ (agent (idx + j)).size_out ≠ 0) →
      rcvd + chanRespSizes agent idx k < total →
      ((agent (idx + k)).rc < 0 ∨ (agent (idx + k)).size_out = 0) →
      ∃ reqs2, cxl_get_feature_loop ps total off agent fuel idx rcvd reqs =
        some (reqs2, 0, (agent (idx + k)).return_code) := by
  intro k
  induction k with
  | zero =>
    intro fuel idx rcvd reqs hfuel _ _ _ hbad
    simp only [Nat.add_zero] at hbad ⊢
    rw [cxl_get_feature_loop_unfold _ _ _ _ _ _ _ _ (by omega), if_pos hbad]
    exact ⟨_, rfl⟩
  | succ k ihk =>
    intro fuel idx rcvd reqs hfuel hrcvd hgood hsum hbad
    obtain ⟨hrc, hsz⟩ := hgood 0 (by omega)
    rw [chanRespSizes_succ] at hsum
    simp only [Nat.add_zero] at hrc hsz
    rw [cxl_get_feature_loop_unfold _ _ _ _ _ _ _ _ (by omega),
      if_neg (by rintro (h | h) <;> omega), if_pos (by omega)]
    have hidx : idx + (k + 1) = idx + 1 + k := by omega
    rw [hidx]
    refine ihk (fuel - 1) (idx + 1) (rcvd + (agent idx).size_out) _ (by omega) (by omega)
      ?_ (by omega) (by rw [← hidx]; exact hbad)
    intro j hj
    have := hgood (j + 1) (by omega)
    rwa [show idx + (j + 1) = idx + 1 + j by omega] at this

theorem cxl_get_feature_loop_success (ps total off : Nat) (agent : Nat → ChanResp) :
    ∀ fuel idx rcvd reqs, rcvd < total → total - rcvd < fuel →
      (∀ j, 0 ≤ (agent j).rc ∧ (agent j).size_out ≠ 0) →
      ∃ reqs2 ret, cxl_get_feature_loop ps total off agent fuel idx rcvd reqs =
        some (reqs2, ret, CXL_MBOX_CMD_RC_SUCCESS) ∧ total ≤ ret := by
  intro fuel
  induction fuel with
  | zero =>
    intro idx rcvd reqs hrcvd hfuel _
    omega
  | succ f ih =>
    intro idx rcvd reqs hrcvd hfuel hgood
    obtain ⟨hrc, hsz⟩ := hgood idx
    rw [cxl_get_feature_loop_unfold _ _ _ _ _ _ _ _ (by omega),
      if_neg (by rintro (h | h) <;> omega)]
    by_cases hc : rcvd + (agent idx).size_out < total
    · rw [if_pos hc]
      exact ih (idx + 1) _ _ hc (by omega) hgood
    · rw [if_neg hc]
      exact ⟨_, _, rfl, by omega⟩

theorem cxl_get_feature_loop_ret (ps total off : Nat) (agent : Nat → ChanResp) :
    ∀ fuel idx rcvd reqs reqs2 ret code, rcvd < total →
      cxl_get_feature_loop ps total off agent fuel idx rcvd reqs =
        some (reqs2, ret, code) →
      ((ret ≠ 0) ↔ total ≤ ret) ∧ (ret ≠ 0 → code = CXL_MBOX_CMD_RC_SUCCESS) := by
  intro fuel
  induction fuel with
  | zero =>
    intro idx rcvd reqs reqs2 ret code _ h
    exact Option.noConfusion h
  | succ f ih =>
    intro idx rcvd reqs reqs2 ret code hrcvd h
    rw [cxl_get_feature_loop_unfold _ _ _ _ _ _ _ _ (by omega)] at h
    split_ifs at h with h1 h2
    · simp only [Option.some.injEq, Prod.mk.injEq] at h
      obtain ⟨-, h0, -⟩ := h
      subst h0
      exact ⟨by constructor <;> omega, by omega⟩
    · exact ih _ _ _ _ _ _ h2 h
    · simp only [Option.some.injEq, Prod.mk.injEq] at h
      obtain ⟨-, h0, hcode⟩ := h
      subst h0
      exact ⟨by constructor <;> omega, fun _ => hcode.symm⟩

theorem cxl_get_feature_loop_req_bound (ps total off : Nat) (agent : Nat → ChanResp) :
    ∀ fuel idx rcvd reqs reqs2 ret code,
      (∀ q ∈ reqs, q.count ≤ ps) →
      cxl_get_feature_loop ps total off agent fuel idx rcvd reqs =
        some (reqs2, ret, code) →
      ∀ q ∈ reqs2, q.count ≤ ps := by
  intro fuel
  induction fuel with
  | zero =>
    intro idx rcvd reqs reqs2 ret code _ h
    exact Option.noConfusion h
  | succ f ih =>
    intro idx rcvd reqs reqs2 ret code hacc h
    have hreq : ∀ q ∈ reqs ++ [(⟨(off + rcvd) % 2 ^ 16,
        min (total - rcvd) ps % 2 ^ 16⟩ : GetReq)], q.count ≤ ps := by
      intro q hq
      rcases List.mem_append.mp hq with hq | hq
      · exact hacc q hq
      · simp only [List.mem_singleton] at hq
        subst hq
        calc min (total - rcvd) ps % 2 ^ 16 ≤ min (total - rcvd) ps := Nat.mod_le _ _
        _ ≤ ps := min_le_right _ _
    rw [cxl_get_feature_loop_unfold _ _ _ _ _ _ _ _ (by omega)] at h
    split_ifs at h with h1 h2
    · simp only [Option.some.injEq, Prod.mk.injEq] at h
      obtain ⟨hr, -, -⟩ := h
      subst hr
      exact hreq
    · exact ih _ _ _ _ _ _ hreq h
    · simp only [Option.some.injEq, Prod.mk.injEq] at h
      obtain ⟨hr, -, -⟩ := h
      subst hr
      exact hreq

/-- C5 (amended): for a GET with a non-empty output buffer, (a) any
result of the chunk loop returns a non-zero byte count exactly when the
accumulated bytes reached (are at least) the requested total, and then
*return_code is the success code; (b) if the channel is well-behaved for
the first k chunks (rc ≥ 0, some output) without accumulating total
bytes, and chunk k fails at the transport level or returns zero output
bytes, the whole GET returns 0 bytes with whatever status code the
channel reported for chunk k — also when that code is Success (the
zero-output case); (c) an always-well-behaved channel makes the GET
succeed with at least total bytes accumulated. -/
theorem cxl_get_feature_outcome (ps total off : Nat) (agent : Nat → ChanResp)
    (h0 : 0 < total) :
    (∀ reqs ret code, cxl_get_feature ps total off agent = some (reqs, ret, code) →
      ((ret ≠ 0) ↔ total ≤ ret) ∧ (ret ≠ 0 → code = CXL_MBOX_CMD_RC_SUCCESS)) ∧
    (∀ k, (∀ j, j < k → 0 ≤ (agent j).rc ∧ (agent j).size_out ≠ 0) →
      chanRespSizes agent 0 k < total →
      ((agent k).rc < 0 ∨ (agent k).size_out = 0) →
      ∃ reqs, cxl_get_feature ps total off agent =
        some (reqs, 0, (agent k).return_code)) ∧
    ((∀ j, 0 ≤ (agent j).rc ∧ (agent j).size_out ≠ 0) →
      ∃ reqs ret, cxl_get_feature ps total off agent =
        some (reqs, ret, CXL_MBOX_CMD_RC_SUCCESS) ∧ total ≤ ret) := by
  unfold cxl_get_feature
  rw [if_neg (by omega)]
  refine ⟨?_, ?_, ?_⟩
  · intro reqs ret code h
    exact cxl_get_feature_loop_ret ps total off agent _ _ _ _ _ _ _ h0 h
  · intro k hgood hsum hbad
    have hk : k ≤ chanRespSizes agent 0 k := by
      apply le_chanRespSizes agent 0 k
      intro j hj
      simpa using (hgood j hj).2
    have h := cxl_get_feature_loop_abort ps total off agent k (total + 1) 0 0 []
      (by omega) h0 (by simpa using hgood) (by simpa using hsum) (by simpa using hbad)
    simpa using h
  · intro hgood
    exact cxl_get_feature_loop_success ps total off agent (total + 1) 0 0 [] h0
      (by omega) hgood

/-- A channel that always reports 100 output bytes, legal under the
spec's channel model since 100 ≤ min(buffer, capacity) here. -/
def greedy_agent : Nat → ChanResp := fun _ => ⟨0, 100, 0⟩

/-- C5 counterexample: capacity 100, total size 150: the second chunk
requests 50 bytes but the channel returns 100 (allowed: the output cap is
min(150,100) = 100), so the GET exits its loop successfully having
accumulated 200 bytes — success with accumulated bytes not equal to the
requested total, refuting the claimed "if and only if ... equal". -/
theorem cxl_get_feature_success_not_equal_total :
    cxl_get_feature 100 150 0 greedy_agent =
      some ([⟨0, 100⟩, ⟨100, 50⟩], 200, CXL_MBOX_CMD_RC_SUCCESS) ∧
    (200 : Nat) ≠ 150 := by
  constructor
  · rfl
  · decide

/-- Witness for C5: total 3, capacity 8; the channel fails chunk 0 with
rc -5 and status code 7: the GET returns 0 bytes and code 7. -/
theorem cxl_get_feature_outcome_witness :
    ∃ reqs, cxl_get_feature 8 3 0 (fun _ => ⟨-5, 0, 7⟩) =
      some (reqs, 0, ((fun _ => (⟨-5, 0, 7⟩ : ChanResp)) 0).return_code) :=
  (cxl_get_feature_outcome 8 3 0 (fun _ => ⟨-5, 0, 7⟩) (by decide)).2.1 0
    (by omega) (by decide) (by decide)

/-- C6 (amended): every chunk request a GET issues carries a count field
of at most the mailbox capacity — the code caps each chunk at
min(remaining, payload_size) (features.c:157), not at payload_size minus
the 21-byte GET request header. -/
theorem cxl_get_feature_req_bounded (ps total off : Nat) (agent : Nat → ChanResp)
    (reqs : List GetReq) (ret code : Nat)
    (h : cxl_get_feature ps total off agent = some (reqs, ret, code)) :
    ∀ q ∈ reqs, q.count ≤ ps := by
  unfold cxl_get_feature at h
  split_ifs at h with h1
  · simp only [Option.some.injEq, Prod.mk.injEq] at h
    obtain ⟨hr, -, -⟩ := h
    subst hr
    intro q hq
    exact absurd hq (List.not_mem_nil q)
  · exact cxl_get_feature_loop_req_bound ps total off agent _ _ _ _ _ _ _
      (by intro q hq; exact absurd hq (List.not_mem_nil q)) h

/-- A channel that returns exactly what each chunk asked for. -/
def exact_agent : Nat → ChanResp := fun j => ⟨0, if j = 0 then 100 else 50, 0⟩

/-- C6 counterexample: capacity 100, total 150: the first issued chunk
requests 100 bytes, which exceeds capacity minus the 21-byte GET request
header (79); the code only caps chunks at the capacity itself. -/
theorem cxl_get_feature_req_exceeds_capacity_minus_header :
    cxl_get_feature 100 150 0 exact_agent =
      some ([⟨0, 100⟩, ⟨100, 50⟩], 150, CXL_MBOX_CMD_RC_SUCCESS) ∧
    ¬((100 : Nat) ≤ 100 - cxl_get_feat_in_size) := by
  constructor
  · rfl
  · decide

/-- Witness for C6: in the capacity-100 total-150 run, the first issued
request's count is at most the capacity 100. -/
theorem cxl_get_feature_req_bounded_witness :
    GetReq.count ⟨0, 100⟩ ≤ 100 :=
  cxl_get_feature_req_bounded 100 150 0 exact_agent [⟨0, 100⟩, ⟨100, 50⟩] 150
    CXL_MBOX_CMD_RC_SUCCESS (by rfl) ⟨0, 100⟩ (by decide)

/-! CXL feature directory: paginated enumeration
(drivers/cxl/features.c:42 get_supported_features,
drivers/cxl/features.c:17 cxl_get_supported_features_count) -/

/-- enum cxl_features_capability (declared outside this tree; its use at
features.c:54 and its construction at features.c:149-170): NONE = 0,
RO = 1 (directory + GET commands enabled), RW = 2. -/
def CXL_FEATURES_RO : Nat := 1

/-- Write n consecutive directory entries F[start..start+n) into the
destination buffer at positions eIdx..eIdx+n-1: the memcpy at
features.c:130, with the buffer as a list of option-valued slots (none =
never written, mirroring the uninitialized kvmalloc buffer). -/
def writeEntries (F : List Nat) : List (Option Nat) → Nat → Nat → Nat → List (Option Nat)
  | buf, _, _, 0 => buf
  | buf, eIdx, start, n + 1 =>
    writeEntries F (buf.set eIdx (F.get? start)) (eIdx + 1) (start + 1) n

/-- The do-while loop of get_supported_features (features.c:81-140).
F is the device's true feature table (the agent answers a page request at
start index s for c entries with pages k entries of F starting at s,
where pages k ≤ c because the channel caps the response at the request
buffer, and num_entries = 0 shows up as size_out ≤ hdr_size); a page of 0
entries, like any of the malformed-size responses at features.c:111-128,
aborts with -ENXIO.  Each successful page copies its entries at the
current destination position, then advances the destination by ONE entry
(entry++ at features.c:133), adds the shortfall back into remain
(features.c:138) and advances the start index by the returned count
(features.c:139).  none means the fuel ran out. -/
def get_supported_features_loop (F : List Nat) (max_feats : Nat) (pages : Nat → Nat) :
    Nat → Nat → Nat → Nat → Nat → List (Option Nat) →
    Option (Except Int (List (Option Nat)))
  | 0, _, _, _, _, _ => none
  | fuel + 1, remain, start, eIdx, pageIdx, buf =>
    let copy_feats := min remain max_feats
    let num_entries := pages pageIdx
    if num_entries = 0 ∨ copy_feats < num_entries then
      some (Except.error (-Enxio))
    else
      let buf2 := writeEntries F buf eIdx start num_entries
      let remain2 := remain - copy_feats + (copy_feats - num_entries)
      if remain2 = 0 then
        some (Except.ok buf2)
      else
        get_supported_features_loop F max_feats pages fuel remain2
          (start + num_entries) (eIdx + 1) (pageIdx + 1) buf2

/-- get_supported_features (features.c:42-147) over the count reported by
cxl_get_supported_features_count: fails -EOPNOTSUPP below the RO
capability (features.c:54), fails -ENOENT when the agent reports zero
features (features.c:58), and otherwise pages the directory into a
count-sized buffer.  Fuel count+1 is enough since every accepted page
returns at least one entry. -/
def get_supported_features (cap : Nat) (F : List Nat) (max_feats : Nat)
    (pages : Nat → Nat) : Option (Except Int (List (Option Nat))) :=
  if cap < CXL_FEATURES_RO then
    some (Except.error (-EOPNOTSUPP))
  else if F.length = 0 then
    some (Except.error (-ENOENT))
  else
    get_supported_features_loop F max_feats pages (F.length + 1) F.length 0 0 0
      (List.replicate F.length none)

/-- C4 failing input: a directory of three features [10, 20, 30] with a
mailbox that fits two entries per page and an agent that fills pages
fully (2 entries, then the remaining 1): the first memcpy lands entries
10 and 20 at slots 0 and 1, but the destination pointer then advances by
only one entry, so the second page's entry 30 overwrites slot 1 and slot
2 is never written: the enumeration "succeeds" with [10, 30, none]
instead of the three descriptors in order. -/
theorem get_supported_features_misplaces_entries :
    get_supported_features CXL_FEATURES_RO [10, 20, 30] 2
        (fun i => if i = 0 then 2 else 1) =
      some (Except.ok [some 10, some 30, none]) ∧
    [some 10, some 30, (none : Option Nat)] ≠ [some 10, some 20, some 30] := by
  constructor
  · rfl
  · decide

/-- C8 counterexample: capability RO, agent reports zero features: the
code returns the -ENOENT error (features.c:58-59), not an empty success:
devm_cxl_add_features then fails instead of exposing an empty directory. -/
theorem get_supported_features_empty_is_error :
    get_supported_features CXL_FEATURES_RO [] 2 (fun _ => 1) =
      some (Except.error (-ENOENT)) ∧
    some (Except.error (-ENOENT)) ≠ some (Except.ok ([] : List (Option Nat))) := by
  constructor
  · rfl
  · intro h
    exact Except.noConfusion (Option.some.inj h)

/-- C8 (amended): whenever the directory commands are implemented
(capability at least RO) and the agent reports a feature count of 0,
enumeration fails with -ENOENT rather than returning an empty list. -/
theorem get_supported_features_count_zero (cap max_feats : Nat) (pages : Nat → Nat)
    (h : CXL_FEATURES_RO ≤ cap) :
    get_supported_features cap [] max_feats pages = some (Except.error (-ENOENT)) := by
  unfold get_supported_features
  unfold CXL_FEATURES_RO at h
  rw [if_neg (by unfold CXL_FEATURES_RO; omega), if_pos (by simp)]

/-- Witness for C8: capability RO (1), any page geometry. -/
theorem get_supported_features_count_zero_witness :
    get_supported_features 1 [] 4 (fun _ => 2) = some (Except.error (-ENOENT)) :=
  get_supported_features_count_zero 1 4 (fun _ => 2) (by decide)

/-! ACPI RAS2 channel: send command with turnaround and rate limiting
(drivers/acpi/ras2.c:95 ras2_send_pcc_cmd) -/

def MSEC_PER_SEC : Nat := 1000

def NSEC_PER_USEC : Nat := 1000

/-- Per-subspace channel parameters (struct ras2_pcc_subspace): the
minimum request turnaround time in µs and the maximum periodic access
rate in commands per 60 s window (0 = unlimited). -/
structure Ras2Subspace where
  pcc_mrtt : Nat
  pcc_mpar : Nat
  deriving DecidableEq, Repr

/-- The function-static state of ras2_send_pcc_cmd (ras2.c:99,102):
last_cmd_cmpl_time, last_mpar_reset (both monotonic-clock instants,
modelled in ns) and mpar_count.  Being C function statics, there is
exactly one copy of these shared by every subspace. -/
structure Ras2Globals where
  last_cmd_cmpl_time : Nat
  last_mpar_reset : Nat
  mpar_count : Nat
  deriving DecidableEq, Repr

/-- What one ras2_send_pcc_cmd call did: its return value, whether it
rang the doorbell (reached mbox_send_message), how many µs of MRTT delay
it inserted before the doorbell decision, and the statics afterwards. -/
structure SendOutcome where
  ret : Int
  rang_doorbell : Bool
  waited_us : Nat
  globals : Ras2Globals
  deriving DecidableEq, Repr

/-- ras2_send_pcc_cmd (ras2.c:95-180) for the one RAS2 command
(RAS2_PCC_CMD_EXEC).  chan_ready is what the initial ras2_check_pcc_chan
poll returned and chan_done what the post-doorbell poll returns; now is
the current monotonic clock in ns (the successive ktime_get() calls
inside one invocation are identified with it).  In order: bail out if the
channel is not ready; wait out the remaining MRTT
(time deltas truncated to u32 as in the C unsigned int assignment);
if MPAR limiting is on and the quota is exhausted, fail with -EIO before
touching the doorbell unless a full 60 s window has passed since
last_mpar_reset, in which case the quota is reset to pcc_mpar; decrement
the quota, ring the doorbell, poll completion, record the completion time
when MRTT is configured. -/
def ras2_send_pcc_cmd (sub : Ras2Subspace) (chan_ready chan_done : Int)
    (now : Nat) (g : Ras2Globals) : SendOutcome :=
  if chan_ready < 0 then
    ⟨chan_ready, false, 0, g⟩
  else
    let waited :=
      if sub.pcc_mrtt ≠ 0 then
        let time_delta := ((now - g.last_cmd_cmpl_time) / NSEC_PER_USEC) % 2 ^ 32
        if time_delta < sub.pcc_mrtt then sub.pcc_mrtt - time_delta else 0
      else 0
    if sub.pcc_mpar ≠ 0 ∧ g.mpar_count = 0 ∧
        ((now - g.last_mpar_reset) / (NSEC_PER_USEC * MSEC_PER_SEC)) % 2 ^ 32 <
          60 * MSEC_PER_SEC then
      ⟨-Eio, false, waited, g⟩
    else
      let g1 :=
        if sub.pcc_mpar ≠ 0 then
          if g.mpar_count = 0 then
            ⟨g.last_cmd_cmpl_time, now, sub.pcc_mpar - 1⟩
          else
            ⟨g.last_cmd_cmpl_time, g.last_mpar_reset, g.mpar_count - 1⟩
        else g
      let g2 :=
        if sub.pcc_mrtt ≠ 0 then
          ⟨now, g1.last_mpar_reset, g1.mpar_count⟩
        else g1
      ⟨if chan_done ≥ 0 then 0 else chan_done, true, waited, g2⟩

/-- A sequence of ras2_send_pcc_cmd calls on one subspace with a ready
and completing channel, at the given monotonic instants. -/
def ras2_send_seq (sub : Ras2Subspace) :
    List Nat → Ras2Globals → List SendOutcome × Ras2Globals
  | [], g => ([], g)
  | t :: ts, g =>
    let o := ras2_send_pcc_cmd sub 0 0 t g
    ((o :: (ras2_send_seq sub ts o.globals).1), (ras2_send_seq sub ts o.globals).2)

theorem ras2_send_proceed_reset (sub : Ras2Subspace) (t : Nat) (g : Ras2Globals)
    (hmpar : sub.pcc_mpar ≠ 0) (hcount : g.mpar_count = 0)
    (hwin : 60 * MSEC_PER_SEC ≤
      ((t - g.last_mpar_reset) / (NSEC_PER_USEC * MSEC_PER_SEC)) % 2 ^ 32) :
    (ras2_send_pcc_cmd sub 0 0 t g).ret = 0 ∧
    (ras2_send_pcc_cmd sub 0 0 t g).rang_doorbell = true ∧
    (ras2_send_pcc_cmd sub 0 0 t g).globals.last_mpar_reset = t ∧
    (ras2_send_pcc_cmd sub 0 0 t g).globals.mpar_count = sub.pcc_mpar - 1 := by
  simp only [ras2_send_pcc_cmd]
  rw [if_neg (by omega), if_neg (by rintro ⟨-, -, h⟩; omega), if_pos hmpar, if_pos hcount]
  split_ifs <;> exact ⟨rfl, rfl, rfl, rfl⟩

theorem ras2_send_proceed_quota (sub : Ras2Subspace) (t : Nat) (g : Ras2Globals)
    (hmpar : sub.pcc_mpar ≠ 0) (hcount : g.mpar_count ≠ 0) :
    (ras2_send_pcc_cmd sub 0 0 t g).ret = 0 ∧
    (ras2_send_pcc_cmd sub 0 0 t g).rang_doorbell = true ∧
    (ras2_send_pcc_cmd sub 0 0 t g).globals.last_mpar_reset = g.last_mpar_reset ∧
    (ras2_send_pcc_cmd sub 0 0 t g).globals.mpar_count = g.mpar_count - 1 := by
  simp only [ras2_send_pcc_cmd]
  rw [if_neg (by omega), if_neg (by rintro ⟨-, h, -⟩; omega), if_pos hmpar, if_neg hcount]
  split_ifs <;> exact ⟨rfl, rfl, rfl, rfl⟩

theorem ras2_send_mpar_limited (sub : Ras2Subspace) (t : Nat) (g : Ras2Globals)
    (hmpar : sub.pcc_mpar ≠ 0) (hcount : g.mpar_count = 0)
    (hwin : ((t - g.last_mpar_reset) / (NSEC_PER_USEC * MSEC_PER_SEC)) % 2 ^ 32 <
      60 * MSEC_PER_SEC) :
    (ras2_send_pcc_cmd sub 0 0 t g).ret = -Eio ∧
    (ras2_send_pcc_cmd sub 0 0 t g).rang_doorbell = false ∧
    (ras2_send_pcc_cmd sub 0 0 t g).globals = g ∧
    (sub.pcc_mrtt = 0 → (ras2_send_pcc_cmd sub 0 0 t g).waited_us = 0) := by
  simp only [ras2_send_pcc_cmd]
  rw [if_neg (by omega), if_pos ⟨hmpar, hcount, hwin⟩]
  refine ⟨rfl, rfl, rfl, ?_⟩
  intro hmrtt
  simp [hmrtt]

theorem ras2_send_seq_quota (sub : Ras2Subspace) (hmpar : sub.pcc_mpar ≠ 0) :
    ∀ (ts : List Nat) (g : Ras2Globals), ts.length ≤ g.mpar_count →
      (∀ o ∈ (ras2_send_seq sub ts g).1, o.ret = 0 ∧ o.rang_doorbell = true) ∧
      (ras2_send_seq sub ts g).2.mpar_count = g.mpar_count - ts.length ∧
      (ras2_send_seq sub ts g).2.last_mpar_reset = g.last_mpar_reset := by
  intro ts
  induction ts with
  | nil =>
    intro g _
    refine ⟨by intro o ho; exact absurd ho (List.not_mem_nil o), by simp [ras2_send_seq], ?_⟩
    simp [ras2_send_seq]
  | cons t ts ih =>
    intro g hlen
    have hcount : g.mpar_count ≠ 0 := by
      simp only [List.length_cons] at hlen
      omega
    obtain ⟨hret, hrang, hlast, hcnt⟩ := ras2_send_proceed_quota sub t g hmpar hcount
    have hlen2 : ts.length ≤ (ras2_send_pcc_cmd sub 0 0 t g).globals.mpar_count := by
      rw [hcnt]
      simp only [List.length_cons] at hlen
      omega
    obtain ⟨hall, hcnt2, hlast2⟩ := ih (ras2_send_pcc_cmd sub 0 0 t g).globals hlen2
    refine ⟨?_, ?_, ?_⟩
    · intro o ho
      simp only [ras2_send_seq, List.mem_cons] at ho
      rcases ho with rfl | ho
      · exact ⟨hret, hrang⟩
      · exact hall o ho
    · simp only [ras2_send_seq]
      rw [hcnt2, hcnt]
      simp only [List.length_cons]
      omega
    · simp only [ras2_send_seq]
      rw [hlast2, hlast]

/-- C3 (amended): with a non-zero rate limit N per 60 s window, starting
from an exhausted-quota state whose window has fully elapsed at t0:
the command at t0 proceeds (resetting the window to t0 with quota N,
consuming one), the next N-1 commands (at any instants) proceed, the
(N+1)-th command issued while the window since t0 has not elapsed fails
with -EIO — the same errno as a timeout, not -EBUSY — without ringing the
doorbell, leaving the statics untouched (and with no delay when no
minimum turnaround time is configured); and once a full window has
elapsed, the next command resets the quota to N and proceeds. -/
theorem ras2_mpar_window (sub : Ras2Subspace) (N : Nat) (g0 : Ras2Globals)
    (t0 t_fail t_next : Nat) (ts : List Nat)
    (hN : sub.pcc_mpar = N) (hN1 : 1 ≤ N) (hcount : g0.mpar_count = 0)
    (hwin0 : 60 * MSEC_PER_SEC ≤
      ((t0 - g0.last_mpar_reset) / (NSEC_PER_USEC * MSEC_PER_SEC)) % 2 ^ 32)
    (hts : ts.length = N - 1)
    (hfail : ((t_fail - t0) / (NSEC_PER_USEC * MSEC_PER_SEC)) % 2 ^ 32 <
      60 * MSEC_PER_SEC)
    (hnext : 60 * MSEC_PER_SEC ≤
      ((t_next - t0) / (NSEC_PER_USEC * MSEC_PER_SEC)) % 2 ^ 32) :
    (ras2_send_pcc_cmd sub 0 0 t0 g0).ret = 0 ∧
    (ras2_send_pcc_cmd sub 0 0 t0 g0).rang_doorbell = true ∧
    (∀ o ∈ (ras2_send_seq sub ts (ras2_send_pcc_cmd sub 0 0 t0 g0).globals).1,
      o.ret = 0 ∧ o.rang_doorbell = true) ∧
    (ras2_send_pcc_cmd sub 0 0 t_fail
        (ras2_send_seq sub ts (ras2_send_pcc_cmd sub 0 0 t0 g0).globals).2).ret =
      -Eio ∧
    (ras2_send_pcc_cmd sub 0 0 t_fail
        (ras2_send_seq sub ts (ras2_send_pcc_cmd sub 0 0 t0 g0).globals).2).rang_doorbell =
      false ∧
    (ras2_send_pcc_cmd sub 0 0 t_fail
        (ras2_send_seq sub ts (ras2_send_pcc_cmd sub 0 0 t0 g0).globals).2).globals =
      (ras2_send_seq sub ts (ras2_send_pcc_cmd sub 0 0 t0 g0).globals).2 ∧
    (sub.pcc_mrtt = 0 →
      (ras2_send_pcc_cmd sub 0 0 t_fail
        (ras2_send_seq sub ts (ras2_send_pcc_cmd sub 0 0 t0 g0).globals).2).waited_us = 0) ∧
    (ras2_send_pcc_cmd sub 0 0 t_next
        (ras2_send_seq sub ts (ras2_send_pcc_cmd sub 0 0 t0 g0).globals).2).ret = 0 ∧
    (ras2_send_pcc_cmd sub 0 0 t_next
        (ras2_send_seq sub ts (ras2_send_pcc_cmd sub 0 0 t0 g0).globals).2).rang_doorbell =
      true ∧
    (ras2_send_pcc_cmd sub 0 0 t_next
        (ras2_send_seq sub ts (ras2_send_pcc_cmd sub 0 0 t0 g0).globals).2).globals.mpar_count =
      N - 1 ∧
    (ras2_send_pcc_cmd sub 0 0 t_next
        (ras2_send_seq sub ts (ras2_send_pcc_cmd sub 0 0 t0 g0).globals).2).globals.last_mpar_reset =
      t_next := by
  have hmpar : sub.pcc_mpar ≠ 0 := by omega
  obtain ⟨h0ret, h0rang, h0last, h0cnt⟩ :=
    ras2_send_proceed_reset sub t0 g0 hmpar hcount hwin0
  have hlen : ts.length ≤ (ras2_send_pcc_cmd sub 0 0 t0 g0).globals.mpar_count := by
    rw [h0cnt]
    omega
  obtain ⟨hmid, hmidcnt, hmidlast⟩ := ras2_send_seq_quota sub hmpar ts
    (ras2_send_pcc_cmd sub 0 0 t0 g0).globals hlen
  have hmidcnt0 : (ras2_send_seq sub ts (ras2_send_pcc_cmd sub 0 0 t0 g0).globals).2.mpar_count
      = 0 := by
    rw [hmidcnt, h0cnt]
    omega
  have hmidlast0 :
      (ras2_send_seq sub ts (ras2_send_pcc_cmd sub 0 0 t0 g0).globals).2.last_mpar_reset
      = t0 := by
    rw [hmidlast, h0last]
  obtain ⟨hfret, hfrang, hfg, hfwait⟩ := ras2_send_mpar_limited sub t_fail _ hmpar hmidcnt0
    (by rw [hmidlast0]; exact hfail)
  obtain ⟨hnret, hnrang, hnlast, hncnt⟩ := ras2_send_proceed_reset sub t_next _ hmpar hmidcnt0
    (by rw [hmidlast0]; exact hnext)
  exact ⟨h0ret, h0rang, hmid, hfret, hfrang, hfg, hfwait, hnret, hnrang,
    by rw [hncnt, hN], hnlast⟩

/-- C3 counterexample: rate limit 2, no MRTT; from a fresh boot state the
commands at t = 60 s and 61 s consume the window's quota; the third
command at 62 s (within the window that began at 60 s) returns -EIO (5),
which is not -EBUSY (16): the refused command does not fail with the Busy
outcome the claim names. -/
theorem ras2_mpar_limit_returns_eio_not_busy :
    (ras2_send_pcc_cmd ⟨0, 2⟩ 0 0 62000000000
      (ras2_send_pcc_cmd ⟨0, 2⟩ 0 0 61000000000
        (ras2_send_pcc_cmd ⟨0, 2⟩ 0 0 60000000000 ⟨0, 0, 0⟩).globals).globals).ret =
      -Eio ∧
    -Eio ≠ -EBUSY ∧ outcome_of_ret (-Eio) = Outcome.IoTimeout := by
  refine ⟨rfl, by decide, by decide⟩

/-- Witness for C3: limit N = 2, window reset at t0 = 60 s, one more send
at 61 s exhausts the quota, the send at 62 s is refused with -EIO. -/
theorem ras2_mpar_window_witness :
    (ras2_send_pcc_cmd ⟨0, 2⟩ 0 0 62000000000
      (ras2_send_seq ⟨0, 2⟩ [61000000000]
        (ras2_send_pcc_cmd ⟨0, 2⟩ 0 0 60000000000 ⟨0, 0, 0⟩).globals).2).ret = -Eio :=
  (ras2_mpar_window ⟨0, 2⟩ 2 ⟨0, 0, 0⟩ 60000000000 62000000000 130000000000
    [61000000000] rfl (by decide) rfl (by decide) (by decide) (by decide)
    (by decide)).2.2.2.1

/-- C9 failing input: the MPAR/MRTT bookkeeping of ras2_send_pcc_cmd
lives in C function statics (ras2.c:99,102), so there is one copy shared
by every subspace: channel A (limit 2) sends at 60 s and 61 s, consuming
the shared quota; the first-ever command of the distinct channel B
(limit 3) at 62 s is then refused with -EIO without ringing the doorbell
— while from the untouched initial state the very same B command
proceeds.  Commands on one channel do consume another channel's quota. -/
theorem ras2_mpar_state_shared_across_subspaces :
    (ras2_send_pcc_cmd ⟨0, 3⟩ 0 0 62000000000
      (ras2_send_pcc_cmd ⟨0, 2⟩ 0 0 61000000000
        (ras2_send_pcc_cmd ⟨0, 2⟩ 0 0 60000000000 ⟨0, 0, 0⟩).globals).globals).ret =
      -Eio ∧
    (ras2_send_pcc_cmd ⟨0, 3⟩ 0 0 62000000000
      (ras2_send_pcc_cmd ⟨0, 2⟩ 0 0 61000000000
        (ras2_send_pcc_cmd ⟨0, 2⟩ 0 0 60000000000 ⟨0, 0, 0⟩).globals).globals).rang_doorbell =
      false ∧
    (ras2_send_pcc_cmd ⟨0, 3⟩ 0 0 62000000000 (⟨0, 0, 0⟩ : Ras2Globals)).ret = 0 ∧
    (ras2_send_pcc_cmd ⟨0, 3⟩ 0 0 62000000000 (⟨0, 0, 0⟩ : Ras2Globals)).rang_doorbell =
      true := by
  refine ⟨rfl, rfl, rfl, rfl⟩

/-! ACPI RAS2 channel: completion polling and deadline
(drivers/acpi/ras2.c:53 ras2_check_pcc_chan,
drivers/acpi/ras2.c:222-228 ras2_register_pcc_channel) -/

def RAS2_NUM_RETRIES : Nat := 600

def RAS2_PCC_CMD_COMPLETE : Nat := 1

def RAS2_PCC_CMD_ERROR : Nat := 4

/-- ras2.c:227-228: deadline = ns_to_ktime(RAS2_NUM_RETRIES *
ras2_ss->latency * NSEC_PER_USEC).  latency is a u32 of µs and
RAS2_NUM_RETRIES an int, so the first product is computed in u32 and
wraps modulo 2^32 before the widening multiplication by 1000. -/
def ras2_deadline_ns (latency_us : Nat) : Nat :=
  ((RAS2_NUM_RETRIES * latency_us) % 2 ^ 32) * NSEC_PER_USEC

/-- The polling loop of ras2_check_pcc_chan (ras2.c:61-85): while the
current instant is not past the deadline, read the status word (statuses
i on the i-th read); on the error bit, decode the capability status (caps
i) and return it (the error bit is cleared, leaving the channel
reusable); on the complete bit return 0; otherwise sleep 10 ms and try
again.  After the deadline, return -EIO.  Time starts at 0 relative to
the deadline; msleep(10) is modelled as advancing exactly the requested
10 ms.  Returns the errno and the number of status reads made; none
means the fuel ran out. -/
def ras2_check_pcc_chan_loop (deadline : Nat) (statuses caps : Nat → Nat) :
    Nat → Nat → Nat → Option (Int × Nat)
  | 0, _, _ => none
  | fuel + 1, now, polls =>
    if deadline < now then
      some (-Eio, polls)
    else if statuses polls &&& RAS2_PCC_CMD_ERROR ≠ 0 then
      some (ras2_report_cap_error (caps polls), polls + 1)
    else if statuses polls &&& RAS2_PCC_CMD_COMPLETE ≠ 0 then
      some (0, polls + 1)
    else
      ras2_check_pcc_chan_loop deadline statuses caps fuel
        (now + 10 * (NSEC_PER_USEC * MSEC_PER_SEC)) (polls + 1)

/-- ras2_check_pcc_chan with fuel sufficient for its whole deadline. -/
def ras2_check_pcc_chan (deadline : Nat) (statuses caps : Nat → Nat) :
    Option (Int × Nat) :=
  ras2_check_pcc_chan_loop deadline statuses caps
    (deadline / (10 * (NSEC_PER_USEC * MSEC_PER_SEC)) + 2) 0 0

theorem ras2_check_pcc_chan_loop_timeout (deadline : Nat) (statuses caps : Nat → Nat)
    (hnb : ∀ i, statuses i &&& RAS2_PCC_CMD_COMPLETE = 0 ∧
      statuses i &&& RAS2_PCC_CMD_ERROR = 0) :
    ∀ fuel now polls, now ≤ deadline →
      (deadline - now) / (10 * (NSEC_PER_USEC * MSEC_PER_SEC)) + 2 ≤ fuel →
      ras2_check_pcc_chan_loop deadline statuses caps fuel now polls =
        some (-Eio, polls + (deadline - now) / (10 * (NSEC_PER_USEC * MSEC_PER_SEC)) + 1) := by
  intro fuel
  induction fuel with
  | zero =>
    intro now polls _ hfuel
    unfold NSEC_PER_USEC MSEC_PER_SEC at hfuel
    omega
  | succ f ih =>
    intro now polls hnow hfuel
    have h1 := (hnb polls).1
    have h2 := (hnb polls).2
    show (if deadline < now then _ else _) = _
    rw [if_neg (by omega), if_neg (by rw [h2]; omega), if_neg (by rw [h1]; omega)]
    by_cases hc : now + 10 * (NSEC_PER_USEC * MSEC_PER_SEC) ≤ deadline
    · rw [ih (now + 10 * (NSEC_PER_USEC * MSEC_PER_SEC)) (polls + 1) hc
        (by unfold NSEC_PER_USEC MSEC_PER_SEC at *; omega)]
      congr 1
      congr 1
      unfold NSEC_PER_USEC MSEC_PER_SEC at *
      omega
    · have hf1 : f ≠ 0 := by
        unfold NSEC_PER_USEC MSEC_PER_SEC at *
        omega
      cases f with
      | zero => exact absurd rfl hf1
      | succ f2 =>
        show (if deadline < now + 10 * (NSEC_PER_USEC * MSEC_PER_SEC) then _ else _) = _
        rw [if_pos (by omega)]
        congr 1
        congr 1
        unfold NSEC_PER_USEC MSEC_PER_SEC at *
        omega

/-- C7 (amended): a channel that never sets the completion or error bit
makes ras2_check_pcc_chan always terminate with -EIO (the IoTimeout
outcome) right after the deadline, having polled at the fixed 10 ms
interval exactly deadline/10ms + 1 times; and the configured deadline is
latency × 600 (as nanoseconds) whenever the u32 product 600 × latency
does not wrap. -/
theorem ras2_check_pcc_chan_timeout (latency : Nat) (statuses caps : Nat → Nat)
    (hnb : ∀ i, statuses i &&& RAS2_PCC_CMD_COMPLETE = 0 ∧
      statuses i &&& RAS2_PCC_CMD_ERROR = 0) :
    ras2_check_pcc_chan (ras2_deadline_ns latency) statuses caps =
      some (-Eio,
        ras2_deadline_ns latency / (10 * (NSEC_PER_USEC * MSEC_PER_SEC)) + 1) ∧
    outcome_of_ret (-Eio) = Outcome.IoTimeout ∧
    (RAS2_NUM_RETRIES * latency < 2 ^ 32 →
      ras2_deadline_ns latency = RAS2_NUM_RETRIES * latency * NSEC_PER_USEC) := by
  refine ⟨?_, by decide, ?_⟩
  · unfold ras2_check_pcc_chan
    rw [ras2_check_pcc_chan_loop_timeout (ras2_deadline_ns latency) statuses caps hnb
      (ras2_deadline_ns latency / (10 * (NSEC_PER_USEC * MSEC_PER_SEC)) + 2) 0 0
      (Nat.zero_le _) (le_refl _)]
    simp
  · intro hlat
    unfold ras2_deadline_ns
    rw [Nat.mod_eq_of_lt hlat]

/-- C7 counterexample: a nominal latency of 7200000 µs (7.2 s, a valid
u32) makes 600 × latency wrap in u32: the computed deadline is
25032704000 ns (about 25 s), far below the claimed latency × 600
(4320 s): the deadline is not the latency multiplied by a factor of at
least 600 for every latency. -/
theorem ras2_deadline_overflows :
    ras2_deadline_ns 7200000 = 25032704000 ∧
    25032704000 < RAS2_NUM_RETRIES * 7200000 * NSEC_PER_USEC := by
  constructor
  · rfl
  · decide

/-- Witness for C7: latency 1 µs, status stuck at 0: the poll loop makes
600000/10^7 + 1 = 1 read and returns -EIO. -/
theorem ras2_check_pcc_chan_timeout_witness :
    ras2_check_pcc_chan (ras2_deadline_ns 1) (fun _ => 0) (fun _ => 0) =
      some (-Eio, ras2_deadline_ns 1 / (10 * (NSEC_PER_USEC * MSEC_PER_SEC)) + 1) :=
  (ras2_check_pcc_chan_timeout 1 (fun _ => 0) (fun _ => 0)
    (fun _ => ⟨Nat.zero_and _, Nat.zero_and _⟩)).1
